import Mathlib

/-!
Verification development for the audit-rule evaluation engine of the
Numina flagging mechanism (server/services/quickbooksSchemaExtractor.js).

The engine evaluates structured audit rules against batches of nested
JSON transaction records.  This file gives a shallow embedding of the
engine: JSON values are an inductive type, JavaScript numbers are exact
fractions, stateful loops become structural recursion, and code that can
throw (evidence extraction calling findIndex on a non-array) returns
Except.  Network fetching, logging and the wall clock are outside the
evaluation core: transaction batches are passed as a list and the clock
is modelled as the constant 0.
-/

namespace Numina

/-- JavaScript numbers, modelled as exact fractions `num / den` (not
necessarily in lowest terms; `den` is positive for every value built
here).  All transaction data in this development is decimal, so exact
fraction arithmetic coincides with the double arithmetic of the source
on every value exercised. -/
structure JNum where
  num : Int
  den : Nat

/-- Numeric equality (cross multiplication). -/
def JNum.eqb (a b : JNum) : Bool :=
  a.num * (b.den : Int) == b.num * (a.den : Int)

/-- Numeric strict order (denominators are positive). -/
def JNum.ltb (a b : JNum) : Bool :=
  a.num * (b.den : Int) < b.num * (a.den : Int)

def JNum.ofNat (n : Nat) : JNum := ⟨(n : Int), 1⟩

def JNum.neg (a : JNum) : JNum := ⟨-a.num, a.den⟩

def JNum.add (a b : JNum) : JNum :=
  ⟨a.num * (b.den : Int) + b.num * (a.den : Int), a.den * b.den⟩

/-- Multiply by `10 ^ k`. -/
def JNum.mulPow10 (a : JNum) (k : Nat) : JNum := ⟨a.num * ((10 ^ k : Nat) : Int), a.den⟩

/-- Divide by `10 ^ k`. -/
def JNum.divPow10 (a : JNum) (k : Nat) : JNum := ⟨a.num, a.den * 10 ^ k⟩

/-- JSON-like values flowing through the engine: transaction fields,
rule condition targets, resolved values.  `undefined` is represented
outside this type, as `Option Jval` with `none` for undefined. -/
inductive Jval where
  | null
  | bool (b : Bool)
  | num (q : JNum)
  | str (s : String)
  | arr (elems : List Jval)
  | obj (fields : List (String × Jval))

/-- Property lookup on an object literal: first binding wins, as for
JavaScript object keys (duplicate keys cannot coexist at runtime). -/
def objGet (fields : List (String × Jval)) (k : String) : Option Jval :=
  match fields with
  | [] => none
  | (k2, v) :: rest => if k2 == k then some v else objGet rest k

/-- A transaction record is a JSON object (spec data model section 3). -/
def Transaction := List (String × Jval)

/- ---------- string helpers (char-list models of the string ops used) ---------- -/

/-- Model of `String.prototype.split` with separator `"."` (single
character separator, no limit): `"a..b"` gives `["a", "", "b"]`, and the
empty string gives `[""]`. -/
def splitChars (cs : List Char) (acc : List Char) : List String :=
  match cs with
  | [] => [String.mk acc.reverse]
  | '.' :: rest => String.mk acc.reverse :: splitChars rest []
  | c :: rest => splitChars rest (c :: acc)

def splitOnDot (s : String) : List String := splitChars s.data []

/-- Does the char list `p` lead the char list `s`? -/
def listStarts (s p : List Char) : Bool :=
  match s, p with
  | _, [] => true
  | [], _ :: _ => false
  | c :: cs, d :: ds => c == d && listStarts cs ds

/-- Model of `String.prototype.startsWith`. -/
def strStartsWith (s p : String) : Bool := listStarts s.data p.data

/-- Model of `String.prototype.substring(n)` (code points; the source
only uses it on the ASCII text `"Line."`). -/
def substringFrom (s : String) (n : Nat) : String := String.mk (s.data.drop n)

/-- Model of `Array.prototype.join` for a list of already rendered
parts with separator `"."`. -/
def joinDot (parts : List String) : String :=
  match parts with
  | [] => ""
  | [p] => p
  | p :: rest => p ++ "." ++ joinDot rest

/-- Whitespace for the purposes of JavaScript number parsing. -/
def isJsWs (c : Char) : Bool := c == ' ' || c == '\t' || c == '\n' || c == '\r'

def digitsToNat (cs : List Char) : Nat :=
  cs.foldl (fun a c => 10 * a + (c.toNat - 48)) 0

def spanDigits (cs : List Char) : List Char × List Char :=
  (cs.takeWhile Char.isDigit, cs.dropWhile Char.isDigit)

/-- Assemble a parsed decimal literal: sign, integer digits, fraction
digits, exponent sign and magnitude. -/
def assembleNumber (neg : Bool) (ip fp : List Char) (eneg : Bool) (emag : Nat) : JNum :=
  let base : JNum := JNum.ofNat (digitsToNat ip)
  let base : JNum :=
    if fp.isEmpty then base
    else base.add (JNum.divPow10 (JNum.ofNat (digitsToNat fp)) fp.length)
  let v : JNum :=
    if emag = 0 then base
    else if eneg then base.divPow10 emag
    else base.mulPow10 emag
  if neg then v.neg else v

def splitSign (cs : List Char) : Bool × List Char :=
  match cs with
  | '-' :: rest => (true, rest)
  | '+' :: rest => (false, rest)
  | rest => (false, rest)

/-- Model of ECMAScript ToNumber on a string (`Number(s)`, also the
string branch of loose equality): trims whitespace, empty means `0`,
otherwise the whole remainder must be a signed decimal literal with
optional fraction and exponent; anything else is NaN (`none`).
Hexadecimal and `Infinity` forms do not occur in this development and
are not modelled. -/
def strToNumber (s : String) : Option JNum :=
  let cs := ((s.data.dropWhile isJsWs).reverse.dropWhile isJsWs).reverse
  if cs.isEmpty then some (JNum.ofNat 0)
  else
    let (neg, cs1) := splitSign cs
    let (ip, cs2) := spanDigits cs1
    let (fp, cs3) :=
      match cs2 with
      | '.' :: rest => spanDigits rest
      | rest => ([], rest)
    if ip.isEmpty && fp.isEmpty then none
    else
      match cs3 with
      | [] => some (assembleNumber neg ip fp false 0)
      | 'e' :: rest =>
        let (es, rest2) := splitSign rest
        let (ed, rest3) := spanDigits rest2
        if ed.isEmpty || !rest3.isEmpty then none
        else some (assembleNumber neg ip fp es (digitsToNat ed))
      | 'E' :: rest =>
        let (es, rest2) := splitSign rest
        let (ed, rest3) := spanDigits rest2
        if ed.isEmpty || !rest3.isEmpty then none
        else some (assembleNumber neg ip fp es (digitsToNat ed))
      | _ => none

/-- Model of `parseFloat` on a string: skips leading whitespace, parses
the longest numeric literal at the front (sign, digits, optional
fraction, optional well-formed exponent) and ignores the rest; NaN when
no digits are found. -/
def parseFloatStr (s : String) : Option JNum :=
  let cs := s.data.dropWhile isJsWs
  let (neg, cs1) := splitSign cs
  let (ip, cs2) := spanDigits cs1
  let (fp, cs3) :=
    match cs2 with
    | '.' :: rest => spanDigits rest
    | rest => ([], rest)
  if ip.isEmpty && fp.isEmpty then none
  else
    let (eneg, emag) :=
      match cs3 with
      | 'e' :: rest =>
        let (es, rest2) := splitSign rest
        let (ed, _) := spanDigits rest2
        if ed.isEmpty then (false, 0) else (es, digitsToNat ed)
      | 'E' :: rest =>
        let (es, rest2) := splitSign rest
        let (ed, _) := spanDigits rest2
        if ed.isEmpty then (false, 0) else (es, digitsToNat ed)
      | _ => (false, 0)
    some (assembleNumber neg ip fp eneg emag)

/-- Decimal digits of the fractional part `rem / d`, with fuel; every
number in this development has a finite decimal expansion well inside
the fuel. -/
def fracDigits (fuel : Nat) (rem d : Nat) : String :=
  match fuel with
  | 0 => ""
  | fuel + 1 =>
    if rem = 0 then ""
    else
      String.mk [Char.ofNat (48 + rem * 10 / d % 10)] ++ fracDigits fuel (rem * 10 % d) d

/-- Render a number the way JavaScript stringifies it (decimal; the
values exercised here all have finite decimal expansions). -/
def JNum.toString (q : JNum) : String :=
  let sign := if q.num < 0 then "-" else ""
  let n := q.num.natAbs
  let ipart := n / q.den
  let rem := n % q.den
  if rem = 0 then sign ++ Nat.repr ipart
  else sign ++ Nat.repr ipart ++ "." ++ fracDigits 20 rem q.den

mutual

/-- ECMAScript ToString (`String(v)`): arrays join their elements with
commas (`String([1, [2]])` is `"1,2"`, null elements render empty),
objects render as `"[object Object]"`. -/
def jsToString : Jval → String
  | .null => "null"
  | .bool true => "true"
  | .bool false => "false"
  | .num q => q.toString
  | .str s => s
  | .obj _ => "[object Object]"
  | .arr l => arrJoinComma l

/-- `Array.prototype.join(",")` over engine values. -/
def arrJoinComma : List Jval → String
  | [] => ""
  | [.null] => ""
  | [v] => jsToString v
  | .null :: rest => "," ++ arrJoinComma rest
  | v :: rest => jsToString v ++ "," ++ arrJoinComma rest

end

/-- ECMAScript ToNumber on an engine value (NaN is `none`). -/
def jsToNumber (v : Jval) : Option JNum :=
  match v with
  | .null => some (JNum.ofNat 0)
  | .bool true => some (JNum.ofNat 1)
  | .bool false => some (JNum.ofNat 0)
  | .num q => some q
  | .str s => strToNumber s
  | .arr l => strToNumber (jsToString (.arr l))
  | .obj _ => none

/-- ToNumber of a boolean. -/
def boolToNum (b : Bool) : JNum := if b then JNum.ofNat 1 else JNum.ofNat 0

/-- ToPrimitive as used by loose equality: arrays and objects go
through ToString, primitives are unchanged. -/
def toPrimitiveVal (v : Jval) : Jval :=
  match v with
  | .arr l => .str (arrJoinComma l)
  | .obj _ => .str "[object Object]"
  | v => v

/-- ECMAScript abstract (loose) equality on primitive values: null is
only equal to null (undefined is handled before `==` is reached in the
source), booleans convert to numbers, a number meets a string through
ToNumber of the string, and two strings compare as exact strings. -/
def primLooseEq (a b : Jval) : Bool :=
  match a, b with
  | .null, .null => true
  | .null, _ => false
  | _, .null => false
  | .bool x, .bool y => x == y
  | .bool x, .num n => (boolToNum x).eqb n
  | .num n, .bool x => n.eqb (boolToNum x)
  | .bool x, .str s =>
    match strToNumber s with
    | some m => (boolToNum x).eqb m
    | none => false
  | .str s, .bool x =>
    match strToNumber s with
    | some m => m.eqb (boolToNum x)
    | none => false
  | .num n, .num m => n.eqb m
  | .num n, .str s =>
    match strToNumber s with
    | some m => n.eqb m
    | none => false
  | .str s, .num n =>
    match strToNumber s with
    | some m => m.eqb n
    | none => false
  | .str s, .str t => s == t
  | _, _ => false

/-- ECMAScript abstract (loose) equality, the `==` of the source's
`eq`/`ne` cases.  Two objects or arrays compare by reference; the two
operands of the engine's `==` always come from distinct JSON documents
(transaction vs rule), so that case is `false` here. -/
def jsLooseEq (a b : Jval) : Bool :=
  match a, b with
  | .arr _, .arr _ => false
  | .arr _, .obj _ => false
  | .obj _, .arr _ => false
  | .obj _, .obj _ => false
  | _, _ => primLooseEq (toPrimitiveVal a) (toPrimitiveVal b)

/-- SameValueZero, the equality used by `Array.prototype.includes`:
same type and same value; objects and arrays compare by reference,
which is never shared between a rule value and a transaction value. -/
def sameValueZero (a b : Jval) : Bool :=
  match a, b with
  | .null, .null => true
  | .bool x, .bool y => x == y
  | .num x, .num y => x.eqb y
  | .str x, .str y => x == y
  | _, _ => false

/-- `value.includes(fieldValue)` for an array target. -/
def arrIncludes (l : List Jval) (v : Jval) : Bool :=
  l.any (fun x => sameValueZero x v)

/-- Is the string one or more ASCII digits (the `/^\d+$/` test of the
source)? -/
def segIsIndex (s : String) : Bool :=
  !s.data.isEmpty && s.data.all Char.isDigit

/-- Case-insensitive rendering used by `contains`: `toLowerCase`. -/
def lowerStr (s : String) : String := String.mk (s.data.map Char.toLower)

/-- Does `sub` occur inside `s` (char lists)? -/
def listHasInfix (s sub : List Char) : Bool :=
  listStarts s sub ||
    match s with
    | [] => false
    | _ :: rest => listHasInfix rest sub

/-- Substring test (`String.prototype.includes`). -/
def strIncludes (s sub : String) : Bool := listHasInfix s.data sub.data

/-- The source's `getNestedValue` reduce step: an absent or null
current value propagates as undefined; a pure digit segment indexes
arrays (and becomes the stringified integer key on objects, exactly as
`current[parseInt(key)]` does; character index on strings); any other
segment is a plain property lookup.  On arrays and strings the key
lookup also sees the own `length` property (`arr["length"]` is the
element count, `"abc"["length"]` is 3); inherited prototype members are
function-valued and fall outside the engine's JSON value type, so they
have no representation here. -/
def resolveStep (cur : Jval) (key : String) : Option Jval :=
  if segIsIndex key then
    let i := digitsToNat key.data
    match cur with
    | .arr l => l.get? i
    | .obj fs => objGet fs (Nat.repr i)
    | .str s => (s.data.get? i).map (fun c => Jval.str (String.mk [c]))
    | _ => none
  else
    match cur with
    | .obj fs => objGet fs key
    | .arr l => if key == "length" then some (.num (JNum.ofNat l.length)) else none
    | .str s => if key == "length" then some (.num (JNum.ofNat s.length)) else none
    | _ => none

/-- One step of the `reduce` in `getNestedValue`. -/
def stepResolve (cur : Option Jval) (key : String) : Option Jval :=
  match cur with
  | none => none
  | some .null => none
  | some v => resolveStep v key

/-- `getNestedValue(obj, path)`: split the path on dots and fold the
reduce step over the segments, starting from the object. -/
def getNestedValue (root : Jval) (path : String) : Option Jval :=
  (splitOnDot path).foldl stepResolve (some root)

/-- `isLineField`: does the field path start with the literal text
`"Line."`? -/
def isLineField (field : String) : Bool := strStartsWith field "Line."

/-- The source's `compare(fieldValue, operator, value)`.  An absent
(undefined or null) actual value is `false` for every operator; the
operator vocabulary is closed and anything unrecognized is `false`. -/
def compare (fieldValue : Option Jval) (operator : String) (value : Jval) : Bool :=
  match fieldValue with
  | none => false
  | some .null => false
  | some fv =>
    if operator == "eq" then jsLooseEq fv value
    else if operator == "ne" then !jsLooseEq fv value
    else if operator == "gt" then
      match parseFloatStr (jsToString fv), parseFloatStr (jsToString value) with
      | some a, some b => b.ltb a
      | _, _ => false
    else if operator == "lt" then
      match parseFloatStr (jsToString fv), parseFloatStr (jsToString value) with
      | some a, some b => a.ltb b
      | _, _ => false
    else if operator == "contains" then
      strIncludes (lowerStr (jsToString fv)) (lowerStr (jsToString value))
    else if operator == "not_contains" then
      !strIncludes (lowerStr (jsToString fv)) (lowerStr (jsToString value))
    else if operator == "in" then
      match value with
      | .arr l => arrIncludes l fv
      | _ => false
    else if operator == "not_in" then
      match value with
      | .arr l => !arrIncludes l fv
      | _ => false
    else false

/-- A rule condition (spec data model section 3). -/
structure Condition where
  field : String
  operator : String
  value : Jval
  logical_operator : Option String

/-- An audit rule, restricted to the parts the engine reads. -/
structure Rule where
  id : String
  rule_type : String
  conditions : List Condition
  action : String
  reason : String

/-- The source's `evaluateCondition`: `Line.`-prefixed fields fan out
existentially over the `Line` array (non-array `Line` is `false`);
other fields resolve against the transaction root. -/
def evaluateCondition (t : Transaction) (c : Condition) : Bool :=
  if isLineField c.field then
    match objGet t "Line" with
    | some (.arr lines) =>
      lines.any (fun line =>
        compare (getNestedValue line (substringFrom c.field 5)) c.operator c.value)
    | _ => false
  else
    compare (getNestedValue (.obj t) c.field) c.operator c.value

/-- The loop body of `evaluateConditions`: combine the accumulator with
each remaining condition, using that condition's own logical operator
(missing means `AND`). -/
def foldConditions (t : Transaction) (result : Bool) : List Condition → Bool
  | [] => result
  | c :: rest =>
    let op := c.logical_operator.getD "AND"
    let condResult := evaluateCondition t c
    foldConditions t (if op == "OR" then result || condResult else result && condResult) rest

/-- The source's `evaluateConditions`: an empty list is `true`;
otherwise seed with the first condition and fold the rest. -/
def evaluateConditions (t : Transaction) (conditions : List Condition) : Bool :=
  match conditions with
  | [] => true
  | c :: rest => foldConditions t (evaluateCondition t c) rest

/-- The `flagged_field_data` payload built for a matched condition: a
line shape for `Line.`-prefixed fields, a parent shape for other dotted
fields, a top-level shape for undotted fields. -/
inductive FlaggedFieldData where
  | lineData (line_index : Nat) (line_data : Jval) (field_path : String)
      (field_value : Option Jval)
  | parentData (parent_path : String) (parent_object : Option Jval)
      (field_name : String) (field_value : Option Jval)
  | topLevel (field_name : String) (field_value : Option Jval)
      (parent_object : Transaction)

/-- One `matched_conditions` entry (MatchEvidence). -/
structure MatchEvidence where
  field : String
  operator : String
  value : Jval
  actual_value : Option Jval
  flagged_field_data : Option FlaggedFieldData

/-- A flagged transaction record (the `flagged_at` timestamp is a clock
read, outside the evaluation model). -/
structure FlaggedTransaction where
  id : Option Jval
  transaction_data : Transaction
  matched_conditions : List MatchEvidence
  action : String
  reason : String

/-- The `execution_summary` object.  `flag_rate` is optional because
the empty-batch early return of the source builds a summary without
that key; wall-clock time is modelled as 0. -/
structure ExecutionSummary where
  total_checked : Nat
  flagged_count : Nat
  execution_time : Nat
  flag_rate : Option String

/-- The `data` payload of a successful rule execution. -/
structure RuleData where
  rule_id : String
  rule_type : String
  entity : String
  total_transactions : Nat
  flagged_transactions : List FlaggedTransaction
  execution_summary : ExecutionSummary

/-- The result envelope of `executeRule`. -/
structure RuleResult where
  success : Bool
  error : Option String
  data : Option RuleData

/-- Evidence construction for one condition of a flagged transaction
(the body of the `rule.conditions.map` callback).  For a
`Line.`-prefixed field the source calls `findIndex` on
`transaction.Line` without an array guard, so a non-array `Line` throws
a TypeError; that is the `Except.error` branch. -/
def matchEvidence (t : Transaction) (c : Condition) : Except String MatchEvidence :=
  let actualValue := getNestedValue (.obj t) c.field
  if isLineField c.field then
    match objGet t "Line" with
    | some (.arr lines) =>
      let lineFieldPath := substringFrom c.field 5
      match lines.findIdx? (fun line =>
          compare (getNestedValue line lineFieldPath) c.operator c.value) with
      | some i =>
        .ok { field := c.field, operator := c.operator, value := c.value,
              actual_value := actualValue,
              flagged_field_data := some (.lineData i ((lines.get? i).getD .null)
                c.field actualValue) }
      | none =>
        .ok { field := c.field, operator := c.operator, value := c.value,
              actual_value := actualValue, flagged_field_data := none }
    | _ => .error "lines.findIndex is not a function"
  else
    let fieldParts := splitOnDot c.field
    let parentPath := joinDot fieldParts.dropLast
    let fieldName := fieldParts.getLast?.getD ""
    if parentPath == "" then
      .ok { field := c.field, operator := c.operator, value := c.value,
            actual_value := actualValue,
            flagged_field_data := some (.topLevel c.field actualValue t) }
    else
      .ok { field := c.field, operator := c.operator, value := c.value,
            actual_value := actualValue,
            flagged_field_data := some (.parentData parentPath
              (getNestedValue (.obj t) parentPath) fieldName actualValue) }

/-- `rule.conditions.map(...)` building the evidence list; a thrown
TypeError aborts the whole mapping. -/
def matchedConditions (t : Transaction) : List Condition → Except String (List MatchEvidence)
  | [] => .ok []
  | c :: rest =>
    match matchEvidence t c with
    | .error msg => .error msg
    | .ok ev =>
      match matchedConditions t rest with
      | .error msg => .error msg
      | .ok evs => .ok (ev :: evs)

/-- Evaluate one transaction of the batch: a flagged transaction is
materialized with full evidence, an unflagged one contributes nothing. -/
def processTransaction (rule : Rule) (t : Transaction) :
    Except String (Option FlaggedTransaction) :=
  if evaluateConditions t rule.conditions then
    match matchedConditions t rule.conditions with
    | .error msg => .error msg
    | .ok evs =>
      .ok (some { id := objGet t "Id", transaction_data := t,
                  matched_conditions := evs, action := rule.action,
                  reason := rule.reason })
  else
    .ok none

/-- The `for (const transaction of transactions)` loop of
`executeRule`, collecting flagged transactions in batch order; an
exception aborts the loop. -/
def runTransactions (rule : Rule) : List Transaction →
    Except String (List FlaggedTransaction)
  | [] => .ok []
  | t :: rest =>
    match processTransaction rule t with
    | .error msg => .error msg
    | .ok (some ft) =>
      match runTransactions rule rest with
      | .error msg => .error msg
      | .ok fts => .ok (ft :: fts)
    | .ok none => runTransactions rule rest

/-- Two fractional digits, zero padded. -/
def pad2 (n : Nat) : String :=
  if n < 10 then "0" ++ Nat.repr n else Nat.repr n

/-- `(flagged / total * 100).toFixed(2) + "%"` on exact fractions:
ECMAScript `toFixed` picks the closest 2-decimal value, preferring the
larger one on ties, which for the non-negative rate is half-up rounding
of `flagged * 10000 / total`. -/
def flagRate (flagged total : Nat) : String :=
  let n := (2 * flagged * 10000 + total) / (2 * total)
  Nat.repr (n / 100) ++ "." ++ pad2 (n % 100) ++ "%"

/-- The body of `executeRule` after the batch has been fetched: the
empty batch returns a zero summary early (with no `flag_rate` key);
otherwise every transaction is evaluated and the summary is built.  Any
TypeError from evidence extraction propagates to the caller. -/
def executeRuleCore (rule : Rule) (transactions : List Transaction) (entity : String) :
    Except String RuleData :=
  if transactions.length == 0 then
    .ok { rule_id := rule.id, rule_type := rule.rule_type, entity := entity,
          total_transactions := 0, flagged_transactions := [],
          execution_summary :=
            { total_checked := 0, flagged_count := 0, execution_time := 0,
              flag_rate := none } }
  else
    match runTransactions rule transactions with
    | .error msg => .error msg
    | .ok flaggedTransactions =>
      .ok { rule_id := rule.id, rule_type := rule.rule_type, entity := entity,
            total_transactions := transactions.length,
            flagged_transactions := flaggedTransactions,
            execution_summary :=
              { total_checked := transactions.length,
                flagged_count := flaggedTransactions.length,
                execution_time := 0,
                flag_rate := some (if transactions.length > 0 then
                  flagRate flaggedTransactions.length transactions.length
                  else "0%") } }

/-- The source's `executeRule`: the whole evaluation sits in a
`try`/`catch`, and a caught exception becomes
`{success: false, error, data: null}`. -/
def executeRule (rule : Rule) (transactions : List Transaction) (entity : String) :
    RuleResult :=
  match executeRuleCore rule transactions entity with
  | .ok d => { success := true, error := none, data := some d }
  | .error msg =>
    { success := false, error := some ("Failed to execute rule: " ++ msg), data := none }

/-- The batch `summary` object of `executeMultipleRules`. -/
structure BatchSummary where
  total_rules_executed : Nat
  successful_executions : Nat
  failed_executions : Nat
  total_transactions_checked : Nat
  total_transactions_flagged : Nat
  total_execution_time : Nat

/-- The `data` payload of `executeMultipleRules`. -/
structure BatchData where
  summary : BatchSummary
  individual_results : List RuleResult

/-- The result envelope of `executeMultipleRules`. -/
structure BatchResult where
  success : Bool
  error : Option String
  data : Option BatchData

/-- The sequential `for (const rule of rules)` loop, pushing each
rule's individual result. -/
def runRules (transactions : List Transaction) (entity : String) :
    List Rule → List RuleResult
  | [] => []
  | r :: rest => executeRule r transactions entity :: runRules transactions entity rest

/-- The `results.forEach` aggregation of transaction counts over the
successful results. -/
def sumChecked (results : List RuleResult) : Nat :=
  results.foldl (fun acc r =>
    match r.data with
    | some d => if r.success then acc + d.execution_summary.total_checked else acc
    | none => acc) 0

def sumFlagged (results : List RuleResult) : Nat :=
  results.foldl (fun acc r =>
    match r.data with
    | some d => if r.success then acc + d.execution_summary.flagged_count else acc
    | none => acc) 0

/-- The source's `executeMultipleRules`: run every rule sequentially
against the same batch, collect each individual result, and compile
summary statistics.  Nothing in the loop can escape (each
`executeRule` already catches), so the surrounding `try`/`catch` always
lands in the success branch of this model. -/
def executeMultipleRules (rules : List Rule) (transactions : List Transaction)
    (entity : String) : BatchResult :=
  let results := runRules transactions entity rules
  { success := true, error := none,
    data := some
      { summary :=
          { total_rules_executed := rules.length,
            successful_executions := (results.filter (fun r => r.success)).length,
            failed_executions := (results.filter (fun r => !r.success)).length,
            total_transactions_checked := sumChecked results,
            total_transactions_flagged := sumFlagged results,
            total_execution_time := 0 },
        individual_results := results } }

/- ---------- concrete fixtures used by the statements below ---------- -/

/-- A transaction with a large total. -/
def t600 : Transaction := [("Id", .str "1"), ("TotalAmt", .num ⟨600, 1⟩)]

/-- A transaction with a small total. -/
def t100 : Transaction := [("Id", .str "2"), ("TotalAmt", .num ⟨100, 1⟩)]

/-- `TotalAmt > 500`. -/
def cGt : Condition :=
  { field := "TotalAmt", operator := "gt", value := .num ⟨500, 1⟩, logical_operator := none }

/-- A one-condition rule over `TotalAmt`. -/
def ruleGt : Rule :=
  { id := "r1", rule_type := "amount", conditions := [cGt], action := "flag", reason := "big" }

/-- A rule with no conditions at all. -/
def ruleNoCond : Rule :=
  { id := "r0", rule_type := "all", conditions := [], action := "flag", reason := "every" }

/-- The line items of `txnLine`. -/
def lineElems : List Jval :=
  [.obj [("Amount", .num ⟨150, 1⟩)], .obj [("Amount", .num ⟨50, 1⟩)]]

/-- A transaction whose `Line` is a proper array of line items. -/
def txnLine : Transaction := [("Id", .str "3"), ("Line", .arr lineElems)]

/-- `Line.Amount > 100`. -/
def cLine : Condition :=
  { field := "Line.Amount", operator := "gt", value := .num ⟨100, 1⟩, logical_operator := none }

/-- A one-condition line rule. -/
def ruleLine : Rule :=
  { id := "rL", rule_type := "line", conditions := [cLine], action := "flag", reason := "l" }

/-- A transaction whose `Line` is present but is a number, not an
array. -/
def txnBad : Transaction :=
  [("Id", .str "4"), ("TotalAmt", .num ⟨600, 1⟩), ("Line", .num ⟨7, 1⟩)]

/-- `Line.Amount > 100`, OR-combined with its predecessor. -/
def cLineOr : Condition :=
  { field := "Line.Amount", operator := "gt", value := .num ⟨100, 1⟩,
    logical_operator := some "OR" }

/-- A rule that flags `txnBad` through its first condition while its
second condition is `Line.`-prefixed. -/
def ruleBad : Rule :=
  { id := "rB", rule_type := "line", conditions := [cGt, cLineOr], action := "flag",
    reason := "l" }

/-- Transaction and conditions separating the two groupings of
`A AND B OR C`: `A` and `B` are false on `tGrp`, `C` is true. -/
def tGrp : Transaction := [("A", .num ⟨1, 1⟩)]

def gA : Condition :=
  { field := "B", operator := "eq", value := .num ⟨2, 1⟩, logical_operator := none }

def gB : Condition :=
  { field := "B", operator := "eq", value := .num ⟨2, 1⟩, logical_operator := some "AND" }

def gC : Condition :=
  { field := "A", operator := "eq", value := .num ⟨1, 1⟩, logical_operator := some "OR" }

/- ---------- helper lemmas ---------- -/

/-- The loop of `evaluateConditions` is a plain left fold. -/
theorem foldConditions_eq_foldl (t : Transaction) (l : List Condition) (b : Bool) :
    foldConditions t b l =
      l.foldl (fun acc c =>
        if c.logical_operator.getD "AND" == "OR" then acc || evaluateCondition t c
        else acc && evaluateCondition t c) b := by
  induction l generalizing b with
  | nil => rfl
  | cons c rest ih => simp only [foldConditions, List.foldl]; exact ih _

/-- The rule loop of the batch orchestrator is a map of `executeRule`
over the rule list. -/
theorem runRules_eq_map (ts : List Transaction) (e : String) (rs : List Rule) :
    runRules ts e rs = rs.map (fun r => executeRule r ts e) := by
  induction rs with
  | nil => rfl
  | cons r rest ih => simp only [runRules, List.map]; exact congrArg _ ih

/-- C1: for every transaction and every non-empty condition list, the
engine computes a flat left-to-right fold: the accumulator is seeded
with the first condition's outcome, every later condition is evaluated
unconditionally and combined under its own logical operator (`AND` when
absent), with no precedence or grouping, so `A AND B OR C` is
`((A AND B) OR C)` and there are inputs where the right grouping
`A AND (B OR C)` would give a different answer. -/
theorem evaluateConditions_flat_fold :
    (∀ (t : Transaction) (c0 : Condition) (rest : List Condition),
      evaluateConditions t (c0 :: rest) =
        rest.foldl (fun acc c =>
          if c.logical_operator.getD "AND" == "OR" then acc || evaluateCondition t c
          else acc && evaluateCondition t c) (evaluateCondition t c0)) ∧
    (∀ (t : Transaction) (a b c : Condition),
      b.logical_operator.getD "AND" = "AND" →
      c.logical_operator.getD "AND" = "OR" →
      evaluateConditions t [a, b, c] =
        ((evaluateCondition t a && evaluateCondition t b) || evaluateCondition t c)) ∧
    (evaluateConditions tGrp [gA, gB, gC] = true ∧
      (evaluateCondition tGrp gA &&
        (evaluateCondition tGrp gB || evaluateCondition tGrp gC)) = false) := by
  refine ⟨?_, ?_, by decide, by decide⟩
  · intro t c0 rest
    simp only [evaluateConditions]
    exact foldConditions_eq_foldl t rest (evaluateCondition t c0)
  · intro t a b c hb hc
    simp [evaluateConditions, foldConditions, hb, hc]

/-- C1 witness: the grouping statement applied to the concrete fixture
conditions. -/
theorem evaluateConditions_flat_fold_witness :
    evaluateConditions tGrp [gA, gB, gC] =
      ((evaluateCondition tGrp gA && evaluateCondition tGrp gB) ||
        evaluateCondition tGrp gC) :=
  evaluateConditions_flat_fold.2.1 tGrp gA gB gC rfl rfl

/-- C2: for every transaction and every `Line.`-prefixed condition, a
non-array (or absent) `Line` makes the condition false, and with an
array `Line` the condition holds exactly when some element satisfies
the comparison on the sub-path obtained by dropping the five-character
`Line.` lead — purely existential fan-out. -/
theorem evaluateCondition_line_existential (t : Transaction) (c : Condition)
    (hline : isLineField c.field = true) :
    ((∀ l, objGet t "Line" ≠ some (Jval.arr l)) → evaluateCondition t c = false) ∧
    (∀ l, objGet t "Line" = some (Jval.arr l) →
      (evaluateCondition t c = true ↔
        ∃ line ∈ l, compare (getNestedValue line (substringFrom c.field 5))
          c.operator c.value = true)) := by
  constructor
  · intro hno
    cases ho : objGet t "Line" with
    | none => simp [evaluateCondition, hline, ho]
    | some v =>
      cases v with
      | arr lines => exact absurd ho (hno lines)
      | null => simp [evaluateCondition, hline, ho]
      | bool b => simp [evaluateCondition, hline, ho]
      | num q => simp [evaluateCondition, hline, ho]
      | str s2 => simp [evaluateCondition, hline, ho]
      | obj fs => simp [evaluateCondition, hline, ho]
  · intro l hl
    simp [evaluateCondition, hline, hl, List.any_eq_true]

/-- C2 witness: the existential reading of the fixture line condition
on the fixture line transaction. -/
theorem evaluateCondition_line_existential_witness :
    evaluateCondition txnLine cLine = true ↔
      ∃ line ∈ lineElems, compare (getNestedValue line (substringFrom cLine.field 5))
        cLine.operator cLine.value = true :=
  (evaluateCondition_line_existential txnLine cLine rfl).2 lineElems rfl

/-- C6: for every operator string and every target value, compare is
false whenever the actual value is absent, that is undefined or null. -/
theorem compare_absent_false (op : String) (v : Jval) :
    compare none op v = false ∧ compare (some Jval.null) op v = false :=
  ⟨rfl, rfl⟩

/-- C8: for every non-absent actual value and non-array target, both
the `in` and the `not_in` operator give false — they are not
complementary on a non-array target. -/
theorem in_not_in_non_array (v target : Jval) (hv : v ≠ Jval.null)
    (ht : ∀ l, target ≠ Jval.arr l) :
    compare (some v) "in" target = false ∧
      compare (some v) "not_in" target = false := by
  cases v
  case null => exact absurd rfl hv
  all_goals cases target
  all_goals first
  | exact absurd rfl (ht _)
  | exact ⟨rfl, rfl⟩

/-- C8 witness: the claim's own example, `5` against the string
`"not-an-array"`. -/
theorem in_not_in_non_array_witness :
    compare (some (Jval.num ⟨5, 1⟩)) "in" (Jval.str "not-an-array") = false ∧
    compare (some (Jval.num ⟨5, 1⟩)) "not_in" (Jval.str "not-an-array") = false :=
  in_not_in_non_array (Jval.num ⟨5, 1⟩) (Jval.str "not-an-array")
    (fun h => nomatch h) (fun _ h => nomatch h)

/-- A successful core run is wrapped into the success envelope. -/
theorem executeRule_of_core_ok {r : Rule} {ts : List Transaction} {e : String}
    {d : RuleData} (h : executeRuleCore r ts e = .ok d) :
    executeRule r ts e = { success := true, error := none, data := some d } := by
  simp [executeRule, h]

/-- A thrown exception is wrapped into the failure envelope. -/
theorem executeRule_of_core_error {r : Rule} {ts : List Transaction} {e : String}
    {msg : String} (h : executeRuleCore r ts e = .error msg) :
    executeRule r ts e =
      { success := false,
        error := some ("Failed to execute rule: " ++ msg), data := none } := by
  simp [executeRule, h]

/-- The core result on a non-empty batch whose loop completed. -/
theorem executeRuleCore_cons (rule : Rule) (t : Transaction) (rest : List Transaction)
    (e : String) (l : List FlaggedTransaction)
    (h : runTransactions rule (t :: rest) = .ok l) :
    executeRuleCore rule (t :: rest) e = .ok
      { rule_id := rule.id, rule_type := rule.rule_type, entity := e,
        total_transactions := (t :: rest).length,
        flagged_transactions := l,
        execution_summary :=
          { total_checked := (t :: rest).length, flagged_count := l.length,
            execution_time := 0,
            flag_rate := some (if (t :: rest).length > 0 then
              flagRate l.length (t :: rest).length else "0%") } } := by
  simp [executeRuleCore, h]

/-- C3: executeRule never propagates an exception — every result is
either the success envelope around the core data or the converted
failure `{success := false, error, data := null}` — and
executeMultipleRules produces exactly one individual result per rule,
in rule order, each a function of its own rule alone; in the fixture
batch of three rules whose middle rule faults, the three results are
[true, false, true]. -/
theorem executeRule_catch_and_batch_isolation :
    (∀ (r : Rule) (ts : List Transaction) (e : String),
      (∃ d, executeRuleCore r ts e = .ok d ∧
        executeRule r ts e = { success := true, error := none, data := some d }) ∨
      (∃ msg, executeRuleCore r ts e = .error msg ∧
        executeRule r ts e =
          { success := false,
            error := some ("Failed to execute rule: " ++ msg), data := none })) ∧
    (∀ (rs : List Rule) (ts : List Transaction) (e : String),
      ∃ bd, executeMultipleRules rs ts e =
          { success := true, error := none, data := some bd } ∧
        bd.individual_results = rs.map (fun r => executeRule r ts e)) ∧
    ((executeMultipleRules [ruleGt, ruleBad, ruleLine] [txnBad] "Expense").data.map
      (fun bd => bd.individual_results.map (fun r => r.success)) =
        some [true, false, true]) := by
  refine ⟨?_, ?_, rfl⟩
  · intro r ts e
    cases hc : executeRuleCore r ts e with
    | ok d => exact Or.inl ⟨d, rfl, executeRule_of_core_ok hc⟩
    | error msg => exact Or.inr ⟨msg, rfl, executeRule_of_core_error hc⟩
  · intro rs ts e
    exact ⟨_, rfl, runRules_eq_map ts e rs⟩

/-- C4: on the empty batch — the only way total_checked can be zero —
the early return builds an execution summary with no flag_rate field at
all (modelled as `none`), not the promised "0%"; the zero branch of the
flag-rate expression in the main path is unreachable.  Positive-case
formatting behaves as claimed: one flagged of three checked gives
"33.33%". -/
theorem executeRule_empty_batch_no_flag_rate :
    executeRule ruleGt [] "Expense" =
      { success := true, error := none,
        data := some
          { rule_id := "r1", rule_type := "amount", entity := "Expense",
            total_transactions := 0, flagged_transactions := [],
            execution_summary :=
              { total_checked := 0, flagged_count := 0, execution_time := 0,
                flag_rate := none } } } ∧
    flagRate 1 3 = "33.33%" ∧ flagRate 1 1 = "100.00%" :=
  ⟨rfl, rfl, rfl⟩

/-- C7: a rule with an empty condition list matches vacuously — the
fold is true on every transaction — and executeRule flags every
transaction of the batch. -/
theorem empty_conditions_flag_all (rule : Rule) (ts : List Transaction) (e : String)
    (h : rule.conditions = []) :
    (∀ t, evaluateConditions t rule.conditions = true) ∧
    ∃ d, executeRule rule ts e = { success := true, error := none, data := some d } ∧
      d.flagged_transactions.map (fun ft => ft.transaction_data) = ts := by
  have heval : ∀ t, evaluateConditions t rule.conditions = true := by
    intro t; rw [h]; rfl
  refine ⟨heval, ?_⟩
  have hrun : ∀ ts2 : List Transaction, runTransactions rule ts2 =
      .ok (ts2.map (fun t =>
        { id := objGet t "Id", transaction_data := t,
          matched_conditions := [], action := rule.action, reason := rule.reason })) := by
    intro ts2
    induction ts2 with
    | nil => rfl
    | cons t rest ih =>
      simp [runTransactions, processTransaction, h, evaluateConditions,
        matchedConditions, ih]
  cases ts with
  | nil => exact ⟨_, rfl, rfl⟩
  | cons t rest =>
    refine ⟨_, executeRule_of_core_ok
      (executeRuleCore_cons rule t rest e _ (hrun (t :: rest))), ?_⟩
    simp [List.map_map, Function.comp_def]

/-- C7 witness: the two-transaction fixture batch under the rule with
no conditions is flagged in full. -/
theorem empty_conditions_flag_all_witness :
    ∃ d, executeRule ruleNoCond [t600, t100] "Expense" =
        { success := true, error := none, data := some d } ∧
      d.flagged_transactions.map (fun ft => ft.transaction_data) = [t600, t100] :=
  (empty_conditions_flag_all ruleNoCond [t600, t100] "Expense" rfl).2

/-- C9: a concrete rule and batch on which the condition fold itself
completes and flags the transaction (the Line condition is false on the
non-array Line but is OR-combined with a true sibling), yet evidence
extraction calls findIndex on that non-array Line value, the TypeError
is caught at the engine boundary, and the rule returns the failure
envelope with every flagged transaction discarded. -/
theorem evidence_fault_discards_flags :
    evaluateConditions txnBad ruleBad.conditions = true ∧
    evaluateCondition txnBad cLineOr = false ∧
    objGet txnBad "Line" = some (Jval.num ⟨7, 1⟩) ∧
    executeRule ruleBad [txnBad] "Expense" =
      { success := false,
        error := some "Failed to execute rule: lines.findIndex is not a function",
        data := none } :=
  ⟨by decide, by decide, rfl, rfl⟩

/-- The eq-rule exactly as the claim words it, for comparison with the
source's operator: the string coercions of the two values match, unless
both values parse as numbers, in which case numeric equality is used
instead. -/
def claimLooseEq (a b : Jval) : Bool :=
  match jsToNumber a, jsToNumber b with
  | some x, some y => x.eqb y
  | _, _ => jsToString a == jsToString b

/-- Is the value a number or a string? -/
def isNumOrStr : Jval → Bool
  | .num _ => true
  | .str _ => true
  | _ => false

/-- The amended equality rule: when both operands are strings the
comparison is exact string equality with no numeric fallback; otherwise
equality holds when both operands convert to numbers and those numbers
are equal; `ne` is the negation. -/
def amendedLooseEq (a b : Jval) : Bool :=
  match a, b with
  | .str s, .str t2 => s == t2
  | _, _ =>
    match jsToNumber a, jsToNumber b with
    | some x, some y => x.eqb y
    | _, _ => false

/-- C5 counterexample: the strings "05" and "5" both parse as the
number 5, so the claimed rule makes them equal, but the source's eq
compares two strings as exact strings and returns false (and ne returns
true). -/
theorem compare_eq_loose_counterexample :
    compare (some (Jval.str "05")) "eq" (Jval.str "5") = false ∧
    claimLooseEq (Jval.str "05") (Jval.str "5") = true ∧
    compare (some (Jval.str "05")) "ne" (Jval.str "5") = true :=
  ⟨rfl, rfl, rfl⟩

/-- C5 (amended): for number-or-string operands, eq is exact string
equality when both operands are strings, and otherwise numeric equality
through ToNumber when both convert (false when either fails); ne is the
negation of that same equality. -/
theorem compare_eq_ne_amended (a b : Jval)
    (ha : isNumOrStr a = true) (hb : isNumOrStr b = true) :
    compare (some a) "eq" b = amendedLooseEq a b ∧
    compare (some a) "ne" b = !amendedLooseEq a b := by
  cases a with
  | null => simp [isNumOrStr] at ha
  | bool x => simp [isNumOrStr] at ha
  | arr l => simp [isNumOrStr] at ha
  | obj fs => simp [isNumOrStr] at ha
  | num q =>
    cases b with
    | null => simp [isNumOrStr] at hb
    | bool x => simp [isNumOrStr] at hb
    | arr l => simp [isNumOrStr] at hb
    | obj fs => simp [isNumOrStr] at hb
    | num p => exact ⟨rfl, rfl⟩
    | str s =>
      cases hst : strToNumber s with
      | none =>
        constructor <;>
          simp [compare, jsLooseEq, toPrimitiveVal, primLooseEq, amendedLooseEq,
            jsToNumber, hst]
      | some m =>
        constructor <;>
          simp [compare, jsLooseEq, toPrimitiveVal, primLooseEq, amendedLooseEq,
            jsToNumber, hst]
  | str s =>
    cases b with
    | null => simp [isNumOrStr] at hb
    | bool x => simp [isNumOrStr] at hb
    | arr l => simp [isNumOrStr] at hb
    | obj fs => simp [isNumOrStr] at hb
    | str t2 => exact ⟨rfl, rfl⟩
    | num p =>
      cases hst : strToNumber s with
      | none =>
        constructor <;>
          simp [compare, jsLooseEq, toPrimitiveVal, primLooseEq, amendedLooseEq,
            jsToNumber, hst]
      | some m =>
        constructor <;>
          simp [compare, jsLooseEq, toPrimitiveVal, primLooseEq, amendedLooseEq,
            jsToNumber, hst]

/-- C5 witness: the amended rule instantiated at the number 5 and the
string "05". -/
theorem compare_eq_ne_amended_witness :
    compare (some (Jval.num ⟨5, 1⟩)) "eq" (Jval.str "05") =
      amendedLooseEq (Jval.num ⟨5, 1⟩) (Jval.str "05") ∧
    compare (some (Jval.num ⟨5, 1⟩)) "ne" (Jval.str "05") =
      !amendedLooseEq (Jval.num ⟨5, 1⟩) (Jval.str "05") :=
  compare_eq_ne_amended (Jval.num ⟨5, 1⟩) (Jval.str "05") rfl rfl

end Numina
